import Mathlib

/-!
# Shallow embedding of the EmbeddedSignals connection registry

Embeds `src/connection.hpp` and `src/signalObject.hpp`.

Modelling decisions:

* A `SignalObject*` participant pointer and a `void(SignalObject::*)(ParamPack...)`
  method pointer are opaque identities that may be null: both are modelled as
  `Option Nat` (`none` = null pointer). The registry compares them only for
  equality (`isSender`, `isReceiver`, `isSignal`, `isSlot`), which pointer
  comparison provides.
* A channel — the single template instantiation `_connections<ParamPack...>` —
  is a `List Connection` in push-back order. The whole family of static
  vectors (one per distinct parameter pack) is a `Registry := Nat → List
  Connection`, indexed by an opaque signature identity standing for the
  parameter pack `ParamPack...`.
* `connect` never stores a null `Connection*` (C++ `new` either returns a
  valid pointer or terminates), so channel elements are `Connection` values
  and the `connection &&` test in `fireAllSlots` is always true in reachable
  states; it is therefore not represented.
* Handler bodies are opaque: emission is modelled as the trace of handler
  calls it performs, each call recording the receiver identity, the slot
  identity and the argument list (`List Int` stands for the value pack
  `args...`). Emission itself never modifies the registry.
-/

/-- An opaque pointer identity; `none` models the null pointer. -/
abbrev Ptr := Option Nat

/-- `Connection<ParamPack...>` from `src/connection.hpp`: the four stored
identities `_sender`, `_receiver`, `_signal`, `_slot`. -/
structure Connection where
  _sender : Ptr
  _receiver : Ptr
  _signal : Ptr
  _slot : Ptr
deriving DecidableEq, Repr

namespace Connection

/-- `Connection::isSender`: `return sender == _sender;`. -/
def isSender (c : Connection) (sender : Ptr) : Bool :=
  sender == c._sender

/-- `Connection::isReceiver`: `return receiver == _receiver;`. -/
def isReceiver (c : Connection) (receiver : Ptr) : Bool :=
  receiver == c._receiver

/-- `Connection::isSignal`: `return signal == _signal;`. -/
def isSignal (c : Connection) (signal : Ptr) : Bool :=
  signal == c._signal

/-- `Connection::isSlot`: `return slot == _slot;`. -/
def isSlot (c : Connection) (slot : Ptr) : Bool :=
  slot == c._slot

end Connection

/-- One performed handler call: `(*_receiver.*_slot)(args...)`. The receiver
and slot are bare `Nat` identities because a call only happens when both
stored pointers are non-null. -/
structure HandlerCall where
  receiver : Nat
  slot : Nat
  args : List Int
deriving DecidableEq, Repr

/-- `Connection::fireSlot(args...)`: calls the slot on the receiver iff
`_receiver && _slot`; returns the list of handler calls performed (empty or a
single call). -/
def Connection.fireSlot (c : Connection) (args : List Int) : List HandlerCall :=
  match c._receiver, c._slot with
  | some r, some s => [⟨r, s, args⟩]
  | _, _ => []

/-- The family of static members `_connections<ParamPack...>`: one vector of
connections per distinct argument-type signature. -/
def Registry := Nat → List Connection

namespace SignalObject

/-- `SignalObject::connect`: appends `new Connection(sender, receiver,
signal, slot)` to `_connections<ParamPack...>` — the channel named by `sig` —
and leaves every other channel untouched. -/
def connect (sig : Nat) (sender receiver signal slot : Ptr) (reg : Registry) :
    Registry :=
  fun t => if t = sig then reg t ++ [⟨sender, receiver, signal, slot⟩] else reg t

/-- The loop body of `SignalObject::disconnect`, position `i` being the value
of the manually incremented `int iterator`. Each pass tests the element the
loop pointer is at (always position `i`: the pointer and `iterator` advance in
lock step from 0); on a match it erases at `i` (`erase(begin() + iterator)`)
and still increments `i`, so the element that shifts into position `i` is
skipped. The C++ range-`for` captured `end()` before any erasure, so after
the live end the walk reads lapsed storage — undefined behavior; the model
ends the walk at the live end. -/
def disconnectLoop (sender receiver signal slot : Ptr) (i : Nat)
    (ch : List Connection) : List Connection :=
  if h : i < ch.length then
    if (ch.get ⟨i, h⟩).isSender sender && (ch.get ⟨i, h⟩).isReceiver receiver &&
        (ch.get ⟨i, h⟩).isSignal signal && (ch.get ⟨i, h⟩).isSlot slot then
      disconnectLoop sender receiver signal slot (i + 1) (ch.eraseIdx i)
    else
      disconnectLoop sender receiver signal slot (i + 1) ch
  else
    ch
termination_by ch.length - i
decreasing_by
  · rw [List.length_eraseIdx]
    simp only [h, if_pos]
    omega
  · omega

/-- `SignalObject::disconnect`: runs the erase walk over the channel named by
`sig`, starting at `iterator = 0`; every other channel is untouched. -/
def disconnect (sig : Nat) (sender receiver signal slot : Ptr) (reg : Registry) :
    Registry :=
  fun t =>
    if t = sig then disconnectLoop sender receiver signal slot 0 (reg t)
    else reg t

/-- The loop of `SignalObject::fireAllSlots` over one channel: for each
connection in vector order, if `sender && connection->isSender(sender) &&
connection->isSignal(signal)` then `connection->fireSlot(args...)`. Returns
the concatenated trace of handler calls. -/
def fireLoop (sender signal : Ptr) (args : List Int) :
    List Connection → List HandlerCall
  | [] => []
  | c :: rest =>
    (if sender.isSome && c.isSender sender && c.isSignal signal then
      c.fireSlot args
    else []) ++ fireLoop sender signal args rest

/-- The connections of one channel on which the `fireAllSlots` loop calls
`fireSlot`, in visit order. -/
def firedRecords (sender signal : Ptr) : List Connection → List Connection
  | [] => []
  | c :: rest =>
    (if sender.isSome && c.isSender sender && c.isSignal signal then [c]
    else []) ++ firedRecords sender signal rest

/-- `SignalObject::fireAllSlots`: walks the channel named by `sig` and
returns the trace of handler calls performed. No channel is modified. -/
def fireAllSlots (sig : Nat) (sender signal : Ptr) (args : List Int)
    (reg : Registry) : List HandlerCall :=
  fireLoop sender signal args (reg sig)

/-- Iterated `connect` of one fixed tuple, `N` times, on one channel. -/
def connectN (sig : Nat) (sender receiver signal slot : Ptr) :
    Nat → Registry → Registry
  | 0, reg => reg
  | n + 1, reg => connect sig sender receiver signal slot
      (connectN sig sender receiver signal slot n reg)

/-- A sequence of `connect` calls, one per listed record, in list order. -/
def connectAll (sig : Nat) (ts : List Connection) (reg : Registry) : Registry :=
  ts.foldl (fun acc c => connect sig c._sender c._receiver c._signal c._slot acc)
    reg

end SignalObject

/-- Observation on an emission trace: the calls delivered to one particular
receiver/slot pair, in order. -/
def callsTo (r hd : Nat) (tr : List HandlerCall) : List HandlerCall :=
  tr.filter (fun hc => hc.receiver == r && hc.slot == hd)

namespace SignalObject

theorem fireLoop_append (sender signal : Ptr) (args : List Int)
    (l₁ l₂ : List Connection) :
    fireLoop sender signal args (l₁ ++ l₂) =
      fireLoop sender signal args l₁ ++ fireLoop sender signal args l₂ := by
  induction l₁ with
  | nil => simp [fireLoop]
  | cons c rest ih => simp [fireLoop, ih]

theorem fireLoop_eq_flatMap (sender signal : Ptr) (args : List Int)
    (ch : List Connection) :
    fireLoop sender signal args ch =
      ch.flatMap (fun c =>
        if sender.isSome && c.isSender sender && c.isSignal signal then
          c.fireSlot args
        else []) := by
  induction ch with
  | nil => rfl
  | cons c rest ih => simp [fireLoop, ih]

theorem firedRecords_eq_filter (sender signal : Ptr) (ch : List Connection) :
    firedRecords sender signal ch =
      ch.filter (fun c =>
        sender.isSome && c.isSender sender && c.isSignal signal) := by
  induction ch with
  | nil => rfl
  | cons c rest ih =>
    by_cases h : (sender.isSome && c.isSender sender && c.isSignal signal) = true
    · simp [firedRecords, List.filter_cons, h, ih]
    · simp only [Bool.not_eq_true] at h
      simp [firedRecords, List.filter_cons, h, ih]

theorem fireLoop_replicate (s r ev hd : Nat) (args : List Int) (n : Nat) :
    fireLoop (some s) (some ev) args
        (List.replicate n ⟨some s, some r, some ev, some hd⟩) =
      List.replicate n ⟨r, hd, args⟩ := by
  induction n with
  | zero => rfl
  | succ n ih =>
    simp [List.replicate_succ, fireLoop, ih, Connection.isSender,
      Connection.isSignal, Connection.fireSlot]

theorem callsTo_fireLoop_not_mem (s r ev hd : Nat) (args : List Int)
    (ch : List Connection)
    (h : Connection.mk (some s) (some r) (some ev) (some hd) ∉ ch) :
    callsTo r hd (fireLoop (some s) (some ev) args ch) = [] := by
  induction ch with
  | nil => rfl
  | cons c rest ih =>
    have hc : c ≠ ⟨some s, some r, some ev, some hd⟩ := fun e =>
      h (e ▸ List.mem_cons_self c rest)
    have hrest := ih fun hm => h (List.mem_cons_of_mem _ hm)
    rw [fireLoop, callsTo, List.filter_append]
    rw [callsTo] at hrest
    rw [hrest, List.append_nil]
    by_cases hfire :
        ((some s : Ptr).isSome && c.isSender (some s) && c.isSignal (some ev)) = true
    · obtain ⟨cs, cr, cg, cl⟩ := c
      simp only [Connection.isSender, Connection.isSignal, Option.isSome_some,
        Bool.true_and, Bool.and_eq_true, beq_iff_eq] at hfire
      obtain ⟨h1, h2⟩ := hfire
      subst h1; subst h2
      rw [if_pos (by simp [Connection.isSender, Connection.isSignal])]
      cases cr with
      | none => rfl
      | some r' =>
        cases cl with
        | none => rfl
        | some s' =>
          simp only [Connection.fireSlot]
          by_cases hr : r' = r
          · by_cases hs : s' = hd
            · exact absurd (by rw [hr, hs]) hc
            · simp [List.filter_cons, hs]
          · simp [List.filter_cons, hr]
    · simp only [Bool.not_eq_true] at hfire
      rw [hfire]
      simp

theorem disconnectLoop_no_match_from (sender receiver signal slot : Ptr) :
    ∀ (n i : Nat) (ch : List Connection), ch.length ≤ i + n →
      (∀ c ∈ ch,
        (c.isSender sender && c.isReceiver receiver && c.isSignal signal &&
          c.isSlot slot) = false) →
      disconnectLoop sender receiver signal slot i ch = ch := by
  intro n
  induction n with
  | zero =>
    intro i ch hle _
    rw [disconnectLoop]
    have hlt : ¬ i < ch.length := by omega
    simp [hlt]
  | succ n ih =>
    intro i ch hle hno
    rw [disconnectLoop]
    by_cases hlt : i < ch.length
    · rw [dif_pos hlt, hno _ (ch.get_mem i hlt)]
      simp only [Bool.false_eq_true, if_false]
      exact ih (i + 1) ch (by omega) hno
    · rw [dif_neg hlt]

theorem fireLoop_eq_filter_flatMap (s : Nat) (signal : Ptr) (args : List Int)
    (ch : List Connection) :
    fireLoop (some s) signal args ch =
      (ch.filter (fun c => c.isSender (some s) && c.isSignal signal)).flatMap
        (fun c => c.fireSlot args) := by
  induction ch with
  | nil => rfl
  | cons c rest ih =>
    by_cases h : (c.isSender (some s) && c.isSignal signal) = true
    · simp [fireLoop, List.filter_cons, h, ih]
    · simp only [Bool.not_eq_true] at h
      simp [fireLoop, List.filter_cons, h, ih]

theorem connectN_apply_self (sig : Nat) (sender receiver signal slot : Ptr)
    (n : Nat) (reg : Registry) :
    connectN sig sender receiver signal slot n reg sig =
      reg sig ++ List.replicate n ⟨sender, receiver, signal, slot⟩ := by
  induction n with
  | zero => simp [connectN]
  | succ n ih =>
    simp [connectN, connect, ih, List.replicate_succ']

theorem connectAll_apply_self (sig : Nat) (ts : List Connection)
    (reg : Registry) :
    connectAll sig ts reg sig = reg sig ++ ts := by
  induction ts generalizing reg with
  | nil => simp [connectAll]
  | cons c rest ih =>
    show connectAll sig rest (connect sig c._sender c._receiver c._signal c._slot reg) sig = _
    rw [ih, connect]
    simp

theorem fireLoop_none_sender (signal : Ptr) (args : List Int)
    (ch : List Connection) :
    fireLoop none signal args ch = [] := by
  induction ch with
  | nil => rfl
  | cons c rest ih => simp [fireLoop, ih]

theorem connect_apply_self (sig : Nat) (sender receiver signal slot : Ptr)
    (reg : Registry) :
    connect sig sender receiver signal slot reg sig =
      reg sig ++ [⟨sender, receiver, signal, slot⟩] := by
  simp [connect]

end SignalObject

theorem callsTo_append (r hd : Nat) (a b : List HandlerCall) :
    callsTo r hd (a ++ b) = callsTo r hd a ++ callsTo r hd b := by
  simp [callsTo, List.filter_append]

/-- C1: evaluates `disconnect` on a channel holding two records that both
match the four arguments exactly. The erase walk removes only the first of
the two adjacent duplicates, and a subsequent emit on the tuple still
invokes the handler once — the claim says every exact match is removed and a
subsequent emit invokes the handler zero times. -/
theorem C1_disconnect_skips_adjacent_duplicate :
    SignalObject.disconnect 0 (some 1) (some 2) (some 3) (some 4)
        (fun _ => [⟨some 1, some 2, some 3, some 4⟩,
          ⟨some 1, some 2, some 3, some 4⟩]) 0 =
      [⟨some 1, some 2, some 3, some 4⟩] ∧
    SignalObject.fireAllSlots 0 (some 1) (some 3) [7]
        (SignalObject.disconnect 0 (some 1) (some 2) (some 3) (some 4)
          (fun _ => [⟨some 1, some 2, some 3, some 4⟩,
            ⟨some 1, some 2, some 3, some 4⟩])) =
      [⟨2, 4, [7]⟩] := by
  have h1 : SignalObject.disconnectLoop (some 1) (some 2) (some 3) (some 4) 0
      [⟨some 1, some 2, some 3, some 4⟩, ⟨some 1, some 2, some 3, some 4⟩] =
      [⟨some 1, some 2, some 3, some 4⟩] := by
    simp [SignalObject.disconnectLoop, Connection.isSender, Connection.isReceiver,
      Connection.isSignal, Connection.isSlot]
  constructor
  · simpa [SignalObject.disconnect] using h1
  · simp [SignalObject.fireAllSlots, SignalObject.disconnect, h1,
      SignalObject.fireLoop, Connection.isSender, Connection.isSignal,
      Connection.fireSlot]

/-- C2: on a channel that holds no binding for the exact tuple, one
`connect(sender, receiver, event, handler)` followed by one
`emit(sender, event, args)` delivers to that receiver/handler pair exactly
one call, carrying exactly `args`. -/
theorem C2_connect_then_single_emit_invokes_once (sig s r ev hd : Nat)
    (args : List Int) (reg : Registry)
    (h0 : Connection.mk (some s) (some r) (some ev) (some hd) ∉ reg sig) :
    callsTo r hd (SignalObject.fireAllSlots sig (some s) (some ev) args
        (SignalObject.connect sig (some s) (some r) (some ev) (some hd) reg)) =
      [⟨r, hd, args⟩] := by
  rw [SignalObject.fireAllSlots, SignalObject.connect_apply_self,
    SignalObject.fireLoop_append, callsTo_append,
    SignalObject.callsTo_fireLoop_not_mem s r ev hd args (reg sig) h0]
  simp [SignalObject.fireLoop, Connection.isSender, Connection.isSignal,
    Connection.fireSlot, callsTo]

/-- C2 witness: concrete instance of `C2_connect_then_single_emit_invokes_once`
on the empty channel. -/
theorem C2_witness :
    callsTo 2 4 (SignalObject.fireAllSlots 0 (some 1) (some 3) [42]
        (SignalObject.connect 0 (some 1) (some 2) (some 3) (some 4)
          (fun _ => []))) =
      [⟨2, 4, [42]⟩] :=
  C2_connect_then_single_emit_invokes_once 0 1 2 3 4 [42] (fun _ => [])
    (by simp)

/-- C3: `connect` deduplicates nothing — N identical `connect` calls on an
initially empty channel leave N independent records in it, and one emit on
the tuple then invokes the handler exactly N times, each time with `args`. -/
theorem C3_multi_connect_emits_n_times (sig s r ev hd : Nat) (args : List Int)
    (reg : Registry) (N : Nat) (_hN : 1 ≤ N) (h0 : reg sig = []) :
    SignalObject.connectN sig (some s) (some r) (some ev) (some hd) N reg sig =
      List.replicate N ⟨some s, some r, some ev, some hd⟩ ∧
    SignalObject.fireAllSlots sig (some s) (some ev) args
        (SignalObject.connectN sig (some s) (some r) (some ev) (some hd) N reg) =
      List.replicate N ⟨r, hd, args⟩ := by
  have hch : SignalObject.connectN sig (some s) (some r) (some ev) (some hd) N reg sig =
      List.replicate N ⟨some s, some r, some ev, some hd⟩ := by
    rw [SignalObject.connectN_apply_self, h0, List.nil_append]
  exact ⟨hch, by rw [SignalObject.fireAllSlots, hch, SignalObject.fireLoop_replicate]⟩

/-- C3 witness: concrete instance of `C3_multi_connect_emits_n_times` at
N = 2 on the empty channel. -/
theorem C3_witness :
    SignalObject.connectN 0 (some 1) (some 2) (some 3) (some 4) 2 (fun _ => []) 0 =
      List.replicate 2 ⟨some 1, some 2, some 3, some 4⟩ ∧
    SignalObject.fireAllSlots 0 (some 1) (some 3) [7]
        (SignalObject.connectN 0 (some 1) (some 2) (some 3) (some 4) 2 (fun _ => [])) =
      List.replicate 2 ⟨2, 4, [7]⟩ :=
  C3_multi_connect_emits_n_times 0 1 2 3 4 [7] (fun _ => []) 2 (by omega) rfl

/-- C4: when no record of the channel matches all four identities,
`disconnect` changes nothing — the whole registry is returned unchanged and
no error is reported (the operation is total). -/
theorem C4_disconnect_without_match_is_noop (sig : Nat)
    (sender receiver signal slot : Ptr) (reg : Registry)
    (h : ∀ c ∈ reg sig,
      (c.isSender sender && c.isReceiver receiver && c.isSignal signal &&
        c.isSlot slot) = false) :
    SignalObject.disconnect sig sender receiver signal slot reg = reg := by
  funext t
  rw [SignalObject.disconnect]
  by_cases ht : t = sig
  · subst ht
    rw [if_pos rfl]
    exact SignalObject.disconnectLoop_no_match_from sender receiver signal slot
      (reg t).length 0 (reg t) (by omega) h
  · rw [if_neg ht]

/-- C4 witness: concrete instance of `C4_disconnect_without_match_is_noop`
on a channel holding one record that differs in its sender identity. -/
theorem C4_witness :
    SignalObject.disconnect 0 (some 1) (some 2) (some 3) (some 4)
        (fun _ => [⟨some 9, some 2, some 3, some 4⟩]) =
      fun _ => [⟨some 9, some 2, some 3, some 4⟩] :=
  C4_disconnect_without_match_is_noop 0 (some 1) (some 2) (some 3) (some 4)
    (fun _ => [⟨some 9, some 2, some 3, some 4⟩]) (by decide)

/-- C5: channels are mutually isolated — `connect` and `disconnect` on the
channel of one signature leave the channel of every other signature
unchanged, and emission on the other signature is unaffected by them, even
when all identities coincide. -/
theorem C5_channel_isolation (sig sigB : Nat) (hne : sigB ≠ sig)
    (sender receiver signal slot senderB signalB : Ptr) (args : List Int)
    (reg : Registry) :
    SignalObject.connect sig sender receiver signal slot reg sigB = reg sigB ∧
    SignalObject.disconnect sig sender receiver signal slot reg sigB = reg sigB ∧
    SignalObject.fireAllSlots sigB senderB signalB args
        (SignalObject.connect sig sender receiver signal slot reg) =
      SignalObject.fireAllSlots sigB senderB signalB args reg ∧
    SignalObject.fireAllSlots sigB senderB signalB args
        (SignalObject.disconnect sig sender receiver signal slot reg) =
      SignalObject.fireAllSlots sigB senderB signalB args reg := by
  refine ⟨?_, ?_, ?_, ?_⟩ <;>
    simp [SignalObject.connect, SignalObject.disconnect,
      SignalObject.fireAllSlots, hne]

/-- C5 witness: concrete instance of `C5_channel_isolation` with coinciding
identities on signatures 0 and 1. -/
theorem C5_witness :
    SignalObject.connect 0 (some 1) (some 2) (some 3) (some 4)
        (fun _ => []) 1 = (fun _ => ([] : List Connection)) 1 ∧
    SignalObject.disconnect 0 (some 1) (some 2) (some 3) (some 4)
        (fun _ => []) 1 = (fun _ => ([] : List Connection)) 1 ∧
    SignalObject.fireAllSlots 1 (some 1) (some 3) [7]
        (SignalObject.connect 0 (some 1) (some 2) (some 3) (some 4)
          (fun _ => [])) =
      SignalObject.fireAllSlots 1 (some 1) (some 3) [7] (fun _ => []) ∧
    SignalObject.fireAllSlots 1 (some 1) (some 3) [7]
        (SignalObject.disconnect 0 (some 1) (some 2) (some 3) (some 4)
          (fun _ => [])) =
      SignalObject.fireAllSlots 1 (some 1) (some 3) [7] (fun _ => []) :=
  C5_channel_isolation 0 1 (by omega) (some 1) (some 2) (some 3) (some 4)
    (some 1) (some 3) [7] (fun _ => [])

/-- C6 counterexample: with a null sender pointer and a record whose stored
sender identity is also null, `matchesSender` and `matchesEvent` both hold,
yet the emission loop calls `fireSlot` on no record at all — refuting the
claim that exactly the records matching sender and event identity are
invoked on every emit. -/
theorem C6_counterexample_null_sender :
    Connection.isSender ⟨none, some 1, some 2, some 3⟩ none = true ∧
    Connection.isSignal ⟨none, some 1, some 2, some 3⟩ (some 2) = true ∧
    SignalObject.firedRecords none (some 2) [⟨none, some 1, some 2, some 3⟩] = [] ∧
    SignalObject.fireAllSlots 0 none (some 2) [9]
        (fun _ => [⟨none, some 1, some 2, some 3⟩]) = [] :=
  ⟨rfl, rfl, rfl, rfl⟩

/-- C6 (amended to a non-null sender pointer): emission calls `fireSlot` on
exactly those records of the channel whose sender identity equals `sender`
and whose signal identity equals `signal` — the receiver identity is never
consulted for matching — and every such record is fired with exactly `args`;
records with the same signal but a different sender are never fired. -/
theorem C6_emit_fires_exact_sender_event_matches (sig s : Nat) (signal : Ptr)
    (args : List Int) (reg : Registry) :
    SignalObject.firedRecords (some s) signal (reg sig) =
      (reg sig).filter (fun c => c.isSender (some s) && c.isSignal signal) ∧
    SignalObject.fireAllSlots sig (some s) signal args reg =
      ((reg sig).filter (fun c => c.isSender (some s) && c.isSignal signal)).flatMap
        (fun c => c.fireSlot args) := by
  constructor
  · rw [SignalObject.firedRecords_eq_filter]
    simp
  · rw [SignalObject.fireAllSlots, SignalObject.fireLoop_eq_filter_flatMap]

/-- C7: the channel stores records in the order of the `connect` calls that
created them (each `connect` appends), and one emission visits and fires the
matching records in exactly that registration order. -/
theorem C7_emission_follows_registration_order (sig : Nat)
    (ts : List Connection) (reg : Registry) (sender signal : Ptr)
    (args : List Int) :
    SignalObject.connectAll sig ts reg sig = reg sig ++ ts ∧
    SignalObject.fireAllSlots sig sender signal args
        (SignalObject.connectAll sig ts (fun _ => [])) =
      ts.flatMap (fun c =>
        if sender.isSome && c.isSender sender && c.isSignal signal then
          c.fireSlot args
        else []) := by
  refine ⟨SignalObject.connectAll_apply_self sig ts reg, ?_⟩
  have hch : SignalObject.connectAll sig ts (fun _ => ([] : List Connection)) sig = ts := by
    rw [SignalObject.connectAll_apply_self]
    rfl
  rw [SignalObject.fireAllSlots, hch, SignalObject.fireLoop_eq_flatMap]

/-- C9: `fireSlot` calls the handler on the stored receiver exactly when
both the stored receiver identity and the stored slot identity are non-null;
when either is null it performs no call at all. -/
theorem C9_fireSlot_null_guard (c : Connection) (args : List Int) :
    (∀ r s, c._receiver = some r → c._slot = some s →
      c.fireSlot args = [⟨r, s, args⟩]) ∧
    ((c._receiver = none ∨ c._slot = none) → c.fireSlot args = []) := by
  constructor
  · intro r s hr hs
    simp [Connection.fireSlot, hr, hs]
  · rintro (hr | hs)
    · simp [Connection.fireSlot, hr]
    · cases hrec : c._receiver <;> simp [Connection.fireSlot, hrec, hs]

/-- C9 witness: concrete instances of `C9_fireSlot_null_guard` — a fully set
record performs the call, a record with a cleared receiver performs none. -/
theorem C9_witness :
    Connection.fireSlot ⟨some 1, some 2, some 3, some 4⟩ [7] = [⟨2, 4, [7]⟩] ∧
    Connection.fireSlot ⟨some 1, none, some 3, some 4⟩ [7] = [] :=
  ⟨(C9_fireSlot_null_guard ⟨some 1, some 2, some 3, some 4⟩ [7]).1 2 4 rfl rfl,
   (C9_fireSlot_null_guard ⟨some 1, none, some 3, some 4⟩ [7]).2 (Or.inl rfl)⟩

/-- C10: emission with a null sender pointer performs no handler call at
all, on every channel state — including channels holding records whose
stored sender identity is itself null — and, since no handler runs, nothing
can modify the registry during the call. -/
theorem C10_null_sender_emits_nothing (sig : Nat) (signal : Ptr)
    (args : List Int) (reg : Registry) :
    SignalObject.fireAllSlots sig none signal args reg = [] := by
  rw [SignalObject.fireAllSlots, SignalObject.fireLoop_none_sender]
